import Mathlib

/-!
Shallow embedding of the llm-tuna frontend (Next.js pages and components under
src/frontend and src/unnamed) together with spec-modelled fragments of the
backend core (the FastAPI backend is not part of the available sources; where a
claim depends on it, a definition marked "Modelled from the spec:" captures the
spec's wording).  JavaScript numbers are modelled as rationals, nullable values
as Option, and JSX conditional rendering as lists of render fragments.
-/

namespace LlmTuna

/-! ### JavaScript-semantics helpers -/

/-- JS string truthiness for a nullable string: truthy iff present and non-empty
(`undefined`, `null` and `""` are all falsy). -/
def jsTruthy : Option String → Bool
  | some s => !(s == "")
  | none => false

/-- JS `d || fallback` on a nullable string: the fallback is used when the
string is absent or empty (empty strings are falsy in JS). -/
def jsOrStr : Option String → String → String
  | some s, fallback => if s == "" then fallback else s
  | none, fallback => fallback

/-- Whether the character list `p` occurs at the start of `l`
(char-by-char comparison, as JS string search does). -/
def leadsWith : List Char → List Char → Bool
  | [], _ => true
  | _ :: _, [] => false
  | p :: ps, c :: cs => p == c && leadsWith ps cs

/-- Substring containment on character lists (JS `String.prototype.includes`). -/
def listHasSub (pat : List Char) : List Char → Bool
  | [] => leadsWith pat []
  | c :: cs => leadsWith pat (c :: cs) || listHasSub pat cs

/-- JS `s.includes(pat)`. -/
def strHasSub (s pat : String) : Bool := listHasSub pat.toList s.toList

/-- JS `s.endsWith(pat)` (case-sensitive suffix test). -/
def strEndsWith (s pat : String) : Bool :=
  leadsWith pat.toList.reverse s.toList.reverse

/-! ### Data model of the evaluation UI (ModelComparison.tsx interfaces) -/

/-- ModelComparison.tsx lines 18-33, per-model half of the Metrics interface. -/
structure ModelMetrics where
  avg_latency_ms : ℚ
  avg_length : ℚ
  cost_per_1m_tokens : ℚ
deriving DecidableEq

/-- ModelComparison.tsx lines 29-32, the improvements block of Metrics. -/
structure Improvements where
  latency_improvement : ℚ
  cost_improvement : ℚ
deriving DecidableEq

/-- ModelComparison.tsx lines 18-33, the Metrics interface. -/
structure Metrics where
  base_model : ModelMetrics
  finetuned_model : ModelMetrics
  improvements : Improvements
deriving DecidableEq

/-- ModelComparison.tsx lines 8-16, the TestExample interface.  `base_tokens`
and `finetuned_tokens` are optional in the TypeScript type. -/
structure TestExample where
  prompt : String
  base_output : String
  finetuned_output : String
  base_latency_ms : ℚ
  finetuned_latency_ms : ℚ
  base_tokens : Option ℚ
  finetuned_tokens : Option ℚ
deriving DecidableEq

/-! ### C1: rendering of the summary-metrics table -/

/-- A fragment of rendered output of the summary-metrics table: either a plain
label, a raw per-model metric value, or one of the two improvement badges. -/
inductive Frag where
  | label (s : String)
  | latencyMs (v : ℚ)
  | costDollars (v : ℚ)
  | lengthTokens (v : ℚ)
  | latencyBadge (pct : ℚ)
  | costBadge (pct : ℚ)
deriving DecidableEq

/-- ModelComparison.tsx lines 104-148: the summary-metrics table, rendered in
document order.  The latency badge is emitted exactly when
`improvements.latency_improvement > 0` (line 121) and the cost badge exactly
when `improvements.cost_improvement > 0` (line 133); the raw per-model values
are emitted unconditionally. -/
def summaryMetrics (m : Metrics) : List Frag :=
  [Frag.label "Avg Latency",
   Frag.latencyMs m.base_model.avg_latency_ms,
   Frag.latencyMs m.finetuned_model.avg_latency_ms]
  ++ (if 0 < m.improvements.latency_improvement then
        [Frag.latencyBadge m.improvements.latency_improvement] else [])
  ++ [Frag.label "Cost/1M tokens",
      Frag.costDollars m.base_model.cost_per_1m_tokens,
      Frag.costDollars m.finetuned_model.cost_per_1m_tokens]
  ++ (if 0 < m.improvements.cost_improvement then
        [Frag.costBadge m.improvements.cost_improvement] else [])
  ++ [Frag.label "Avg Length",
      Frag.lengthTokens m.base_model.avg_length,
      Frag.lengthTokens m.finetuned_model.avg_length]

/-- TrainingProgress.tsx (MetricsCard) lines 175-179: the improvement line of a
MetricsCard is rendered iff the optional `improvement` prop is defined and
positive. -/
def metricsCardShowsImprovement : Option ℚ → Bool
  | some v => decide (0 < v)
  | none => false

/-- C1: in the model-comparison summary table, the latency improvement badge
appears iff `improvements.latency_improvement > 0` and the cost badge iff
`improvements.cost_improvement > 0`; the raw per-model latency and cost values
are always rendered; and a MetricsCard shows its improvement line iff its
improvement prop is present and positive. -/
theorem c1_improvement_badges (m : Metrics) :
    ((∃ p, Frag.latencyBadge p ∈ summaryMetrics m) ↔
        0 < m.improvements.latency_improvement)
    ∧ ((∃ p, Frag.costBadge p ∈ summaryMetrics m) ↔
        0 < m.improvements.cost_improvement)
    ∧ Frag.latencyMs m.base_model.avg_latency_ms ∈ summaryMetrics m
    ∧ Frag.latencyMs m.finetuned_model.avg_latency_ms ∈ summaryMetrics m
    ∧ Frag.costDollars m.base_model.cost_per_1m_tokens ∈ summaryMetrics m
    ∧ Frag.costDollars m.finetuned_model.cost_per_1m_tokens ∈ summaryMetrics m
    ∧ (∀ o : Option ℚ, metricsCardShowsImprovement o = true ↔
        ∃ v, o = some v ∧ 0 < v) := by
  refine ⟨?_, ?_, ?_, ?_, ?_, ?_, ?_⟩
  · constructor
    · rintro ⟨p, hp⟩
      simp only [summaryMetrics, List.mem_append, List.mem_cons,
        List.not_mem_nil] at hp
      split_ifs at hp <;> simp_all
    · intro h
      exact ⟨m.improvements.latency_improvement, by
        simp only [summaryMetrics, List.mem_append, List.mem_cons]
        simp [h]⟩
  · constructor
    · rintro ⟨p, hp⟩
      simp only [summaryMetrics, List.mem_append, List.mem_cons,
        List.not_mem_nil] at hp
      split_ifs at hp <;> simp_all
    · intro h
      exact ⟨m.improvements.cost_improvement, by
        simp only [summaryMetrics, List.mem_append, List.mem_cons]
        simp [h]⟩
  · simp [summaryMetrics]
  · simp [summaryMetrics]
  · simp [summaryMetrics]
  · simp [summaryMetrics]
  · intro o
    cases o with
    | none => simp [metricsCardShowsImprovement]
    | some v => simp [metricsCardShowsImprovement]

/-- Witness for C1 at a concrete Metrics value with a positive latency
improvement and a non-positive cost improvement. -/
theorem c1_improvement_badges_witness :
    ((∃ p, Frag.latencyBadge p ∈
        summaryMetrics ⟨⟨10, 5, 2⟩, ⟨8, 5, 3⟩, ⟨20, -50⟩⟩))
    ∧ ¬ (∃ p, Frag.costBadge p ∈
        summaryMetrics ⟨⟨10, 5, 2⟩, ⟨8, 5, 3⟩, ⟨20, -50⟩⟩)
    ∧ metricsCardShowsImprovement (some 20) = true :=
  ⟨(c1_improvement_badges ⟨⟨10, 5, 2⟩, ⟨8, 5, 3⟩, ⟨20, -50⟩⟩).1.mpr (by norm_num),
   fun h =>
     absurd ((c1_improvement_badges ⟨⟨10, 5, 2⟩, ⟨8, 5, 3⟩, ⟨20, -50⟩⟩).2.1.mp h)
       (by norm_num),
   ((c1_improvement_badges ⟨⟨10, 5, 2⟩, ⟨8, 5, 3⟩, ⟨20, -50⟩⟩).2.2.2.2.2.2
       (some 20)).mpr ⟨20, rfl, by norm_num⟩⟩

/-! ### Training job snapshots and the training progress view (C6, C7) -/

/-- TrainingProgress.tsx lines 9-19, one entry of `training_logs`. -/
structure LogEntry where
  step : Nat
  loss : ℚ
  epoch : ℚ
  timestamp : String
deriving DecidableEq

/-- TrainingProgress.tsx lines 9-19, the TrainingJob interface (a snapshot as
the view receives it from the API). -/
structure TrainingJob where
  id : Nat
  dataset_id : Nat
  status : String
  model_path : Option String
  training_logs : Option (List LogEntry)
  started_at : Option String
  completed_at : Option String
  error_message : Option String
deriving DecidableEq

/-- TrainingProgress.tsx lines 140-152: the "Evaluate Model" action block is
rendered iff `job.status === 'completed' && job.model_path` — the second
conjunct is JS truthiness of the nullable string `model_path`. -/
def evaluateActionShown (j : TrainingJob) : Bool :=
  (j.status == "completed") && jsTruthy j.model_path

/-- A fragment of rendered output of the training-progress status card. -/
inductive JobFrag where
  | heading (s : String)
  | statusBadge (s : String)
  | errorBlock (msg : String)
  | startedLine (s : String)
  | completedLine (s : String)
deriving DecidableEq

/-- A JSX block guarded by JS truthiness of a nullable string (`{field && (...)}`):
rendered exactly when the field is present and non-empty. -/
def truthyBlock (o : Option String) (mk : String → JobFrag) : List JobFrag :=
  match o with
  | some s => if s == "" then [] else [mk s]
  | none => []

/-- TrainingProgress.tsx lines 63-121: the status card, rendered in document
order.  The status badge (lines 72-84) is unconditional; the error block
(lines 87-91) is guarded by JS truthiness of `job.error_message`; the
started/completed lines (lines 110-120) by truthiness of their fields. -/
def statusCard (j : TrainingJob) : List JobFrag :=
  [JobFrag.heading ("Training Job #" ++ toString j.id),
   JobFrag.statusBadge j.status]
  ++ truthyBlock j.error_message JobFrag.errorBlock
  ++ truthyBlock j.started_at JobFrag.startedLine
  ++ truthyBlock j.completed_at JobFrag.completedLine

theorem mem_truthyBlock (f : JobFrag) (o : Option String) (mk : String → JobFrag) :
    f ∈ truthyBlock o mk ↔ ∃ s, o = some s ∧ s ≠ "" ∧ f = mk s := by
  cases o with
  | none => simp [truthyBlock]
  | some s =>
      by_cases h : s = ""
      · subst h
        simp [truthyBlock]
      · simp [truthyBlock, h]

/-- Decidable presence of an error block in a rendered status card. -/
def hasErrorBlock (l : List JobFrag) : Bool :=
  l.any fun f => match f with
    | JobFrag.errorBlock _ => true
    | _ => false

/-- C6 counterexample: a job with status "completed" and a non-null but empty
`model_path` does not get the Evaluate Model action, refuting the claimed
"iff status completed and model_path non-null". -/
theorem c6_counterexample :
    evaluateActionShown ⟨1, 1, "completed", some "", none, none, none, none⟩ = false
    ∧ (some "" : Option String) ≠ none := by
  refine ⟨rfl, ?_⟩
  intro h
  exact Option.noConfusion h

/-- C6 (amended): the Evaluate Model action is offered iff the job's status is
"completed" and its `model_path` is present and non-empty (JS truthiness of
the nullable string). -/
theorem c6_evaluate_action (j : TrainingJob) :
    evaluateActionShown j = true ↔
      j.status = "completed" ∧ ∃ p, j.model_path = some p ∧ p ≠ "" := by
  cases hm : j.model_path with
  | none => simp [evaluateActionShown, jsTruthy, hm]
  | some p =>
      simp only [evaluateActionShown, jsTruthy, hm, Bool.and_eq_true, beq_iff_eq,
        Bool.not_eq_eq_eq_not, Bool.not_true, beq_eq_false_iff_ne, ne_eq]
      constructor
      · rintro ⟨h1, h2⟩
        exact ⟨h1, p, rfl, h2⟩
      · rintro ⟨h1, q, hq, h2⟩
        cases Option.some.inj hq
        exact ⟨h1, h2⟩

/-- Witness for C6 at a concrete completed job with a non-empty model path. -/
theorem c6_evaluate_action_witness :
    evaluateActionShown
      ⟨7, 3, "completed", some "models/job7", none, none, none, none⟩ = true :=
  (c6_evaluate_action
      ⟨7, 3, "completed", some "models/job7", none, none, none, none⟩).mpr
    ⟨rfl, "models/job7", rfl, by decide⟩

/-- C7 counterexample: a failed job carrying a non-null but empty
`error_message` renders no error block, refuting the claimed "non-null implies
rendered verbatim". -/
theorem c7_counterexample :
    hasErrorBlock
        (statusCard ⟨2, 1, "failed", none, none, none, none, some ""⟩) = false
    ∧ (some "" : Option String) ≠ none := by
  refine ⟨rfl, ?_⟩
  intro h
  exact Option.noConfusion h

/-- C7 (amended): the status badge showing the job's status is always rendered,
and an error block with message `m` is rendered iff `error_message` is present,
non-empty and equal to `m` (so a failed job with a non-empty stored message is
shown as its status plus that message verbatim; a null message renders no
error block). -/
theorem c7_error_block (j : TrainingJob) :
    JobFrag.statusBadge j.status ∈ statusCard j
    ∧ (∀ m, JobFrag.errorBlock m ∈ statusCard j ↔
        j.error_message = some m ∧ m ≠ "") := by
  refine ⟨?_, ?_⟩
  · simp [statusCard]
  · intro m
    simp only [statusCard, List.mem_append, List.mem_cons, List.not_mem_nil,
      mem_truthyBlock]
    constructor
    · rintro ((((h | h | h) | ⟨s, hs, hne, hmk⟩) | ⟨s, hs, hne, hmk⟩) |
        ⟨s, hs, hne, hmk⟩)
      · exact absurd h (by simp)
      · exact absurd h (by simp)
      · exact h.elim
      · injection hmk with h
        subst h
        exact ⟨hs, hne⟩
      · exact absurd hmk (by simp)
      · exact absurd hmk (by simp)
    · rintro ⟨hem, hm⟩
      exact Or.inl (Or.inl (Or.inr ⟨m, hem, hm, rfl⟩))

/-- Witness for C7 at a concrete failed job with a stored message. -/
theorem c7_error_block_witness :
    JobFrag.errorBlock "CUDA out of memory" ∈
      statusCard ⟨2, 1, "failed", none, none, none, none,
        some "CUDA out of memory"⟩ :=
  ((c7_error_block ⟨2, 1, "failed", none, none, none, none,
        some "CUDA out of memory"⟩).2 "CUDA out of memory").mpr
    ⟨rfl, by decide⟩

/-! ### C4: evaluation page error mapping (src/unnamed/part_001, startEvaluation) -/

/-- The dedicated message of the evaluation page for a not-completed job
(src/unnamed/part_001 line 32). -/
def notCompletedMessage : String :=
  "Training job is not completed yet. Please wait for training to finish."

/-- The generic failure message of the evaluation page
(src/unnamed/part_001 line 34). -/
def genericEvalFailureMessage : String := "Failed to start evaluation"

/-- JS `detail?.includes('not completed')`: false when detail is absent. -/
def detailHasNotCompleted : Option String → Bool
  | some d => strHasSub d "not completed"
  | none => false

/-- src/unnamed/part_001 lines 30-35: the catch branch of startEvaluation maps
an HTTP failure (optional status, optional response detail) to the displayed
error string.  A 400 whose detail contains "not completed" gets the dedicated
message; everything else gets `detail || 'Failed to start evaluation'`. -/
def evaluationErrorMessage (status : Option Nat) (detail : Option String) :
    String :=
  if status == some 400 && detailHasNotCompleted detail then notCompletedMessage
  else jsOrStr detail genericEvalFailureMessage

/-- C4: a 400 failure whose detail contains "not completed" is surfaced as the
dedicated actionable message; any other failure is surfaced as the non-empty
server detail when present and as the generic message otherwise; and the
dedicated and generic messages are distinct strings. -/
theorem c4_error_mapping (status : Option Nat) (detail : Option String) :
    (status = some 400 → detailHasNotCompleted detail = true →
        evaluationErrorMessage status detail = notCompletedMessage)
    ∧ (¬ (status = some 400 ∧ detailHasNotCompleted detail = true) →
        (∀ d, detail = some d → d ≠ "" →
            evaluationErrorMessage status detail = d)
        ∧ ((detail = none ∨ detail = some "") →
            evaluationErrorMessage status detail = genericEvalFailureMessage))
    ∧ notCompletedMessage ≠ genericEvalFailureMessage := by
  refine ⟨?_, ?_, by decide⟩
  · intro h1 h2
    simp [evaluationErrorMessage, h1, h2]
  · intro hnot
    have hcond : (status == some 400 && detailHasNotCompleted detail) = false := by
      rcases Bool.eq_false_or_eq_true
          (status == some 400 && detailHasNotCompleted detail) with h | h
      · rw [Bool.and_eq_true, beq_iff_eq] at h
        exact absurd ⟨h.1, h.2⟩ hnot
      · exact h
    constructor
    · intro d hd hne
      subst hd
      simp only [evaluationErrorMessage, hcond, Bool.false_eq_true, if_false,
        jsOrStr]
      simp [hne]
    · rintro (h | h)
      · subst h
        simp only [evaluationErrorMessage, hcond, Bool.false_eq_true, if_false,
          jsOrStr]
      · subst h
        simp only [evaluationErrorMessage, hcond, Bool.false_eq_true, if_false,
          jsOrStr]
        simp

/-- Witness for C4 at concrete failures: a 400 with a "not completed" detail, a
404 with a detail, and a failure with no response body. -/
theorem c4_error_mapping_witness :
    evaluationErrorMessage (some 400) (some "Training job 3 is not completed") =
        notCompletedMessage
    ∧ evaluationErrorMessage (some 404) (some "Training job not found") =
        "Training job not found"
    ∧ evaluationErrorMessage none none = genericEvalFailureMessage :=
  ⟨(c4_error_mapping (some 400) (some "Training job 3 is not completed")).1
      rfl (by decide),
   ((c4_error_mapping (some 404) (some "Training job not found")).2.1
      (by intro h; exact absurd h.1 (by decide))).1
      "Training job not found" rfl (by decide),
   ((c4_error_mapping none none).2.1
      (by intro h; exact absurd h.1 (by decide))).2 (Or.inl rfl)⟩

/-! ### C5: start-training gating (datasets page + spec-modelled backend) -/

/-- datasets/page.tsx lines 10-17, the Dataset interface of the datasets page. -/
structure DatasetRow where
  id : Nat
  name : String
  num_examples : Option Nat
  validation_status : Option String
  created_at : String
deriving DecidableEq

/-- datasets/page.tsx lines 154-162: the Train action is rendered for a row iff
`dataset.validation_status === 'valid'`. -/
def trainActionShown (d : DatasetRow) : Bool :=
  d.validation_status == some "valid"

/-- datasets/page.tsx lines 51-60: a failed start-training call is surfaced via
`alert(error.response?.data?.detail || 'Failed to start training')`. -/
def trainingFailureAlert (detail : Option String) : String :=
  jsOrStr detail "Failed to start training"

/-- Typed failures of the backend core as named by the spec's error taxonomy
(spec section 7): a precondition violation naming the actual state, or an
index out of range. -/
inductive CoreError where
  | preconditionError (actualState : String)
  | rangeError
deriving DecidableEq

/-- Modelled from the spec: the backend startTraining operation is not under
src/ (only its caller, the datasets page, is).  Spec section 6:
"startTraining(datasetId, config?) -> jobId — fails with PreconditionError if
the dataset is not valid", with the PreconditionError naming the actual state
(section 4.4 wording for precondition failures). -/
def startTrainingCore (validationStatus : String) (freshJobId : Nat) :
    Except CoreError Nat :=
  if validationStatus = "valid" then Except.ok freshJobId
  else Except.error (CoreError.preconditionError validationStatus)

/-- C5: startTraining fails with a PreconditionError exactly when the dataset's
validation status is not "valid"; the datasets page renders the Train action
iff the row's validation_status equals "valid"; and a failure detail returned
by the call is surfaced to the user (non-empty details verbatim, otherwise the
generic alert text). -/
theorem c5_start_training (s : String) (jId : Nat) (d : DatasetRow)
    (detail : Option String) :
    (s ≠ "valid" →
        startTrainingCore s jId = Except.error (CoreError.preconditionError s))
    ∧ (s = "valid" → startTrainingCore s jId = Except.ok jId)
    ∧ (trainActionShown d = true ↔ d.validation_status = some "valid")
    ∧ (∀ msg, detail = some msg → msg ≠ "" → trainingFailureAlert detail = msg)
    ∧ trainingFailureAlert none = "Failed to start training" := by
  refine ⟨?_, ?_, ?_, ?_, rfl⟩
  · intro h
    simp [startTrainingCore, h]
  · intro h
    simp [startTrainingCore, h]
  · simp [trainActionShown]
  · intro msg hd hne
    simp [trainingFailureAlert, jsOrStr, hd, hne]

/-- Witness for C5 at concrete inputs: an invalid dataset is rejected with a
PreconditionError naming its state, a valid one is accepted, the Train action
shows on a valid row, and a server detail is surfaced. -/
theorem c5_start_training_witness :
    startTrainingCore "invalid" 9 =
        Except.error (CoreError.preconditionError "invalid")
    ∧ startTrainingCore "valid" 9 = Except.ok 9
    ∧ trainActionShown ⟨1, "d.jsonl", some 60, some "valid", "2024-01-01"⟩ = true
    ∧ trainingFailureAlert (some "Dataset is not valid") = "Dataset is not valid" :=
  ⟨(c5_start_training "invalid" 9
      ⟨1, "d.jsonl", some 60, some "valid", "2024-01-01"⟩ none).1 (by decide),
   (c5_start_training "valid" 9
      ⟨1, "d.jsonl", some 60, some "valid", "2024-01-01"⟩ none).2.1 rfl,
   (c5_start_training "valid" 9
      ⟨1, "d.jsonl", some 60, some "valid", "2024-01-01"⟩ none).2.2.1.mpr rfl,
   (c5_start_training "valid" 9
      ⟨1, "d.jsonl", some 60, some "valid", "2024-01-01"⟩
      (some "Dataset is not valid")).2.2.2.1
      "Dataset is not valid" rfl (by decide)⟩

/-! ### C8: per-example cost display (ModelComparison.tsx lines 181 and 205) -/

/-- JS `x || 0` on a nullable number (absent becomes 0). -/
def jsOrZero : Option ℚ → ℚ
  | some v => v
  | none => 0

/-- JS `Number.prototype.toFixed(4)` modelled over the rationals: round to the
nearest multiple of 1/10000. -/
def toFixed4 (x : ℚ) : ℚ := (round (x * 10000) : ℤ) / 10000

/-- ModelComparison.tsx line 181: the displayed base-model cost of the current
example, `((metrics?.base_model.cost_per_1m_tokens || 0) / 1000000 *
(currentExample.base_tokens || 0)).toFixed(4)`. -/
def baseCostDisplayed (m : Option Metrics) (ex : TestExample) : ℚ :=
  toFixed4 (jsOrZero (m.map fun mm => mm.base_model.cost_per_1m_tokens)
    / 1000000 * jsOrZero ex.base_tokens)

/-- ModelComparison.tsx line 205: the displayed fine-tuned-model cost of the
current example. -/
def finetunedCostDisplayed (m : Option Metrics) (ex : TestExample) : ℚ :=
  toFixed4 (jsOrZero (m.map fun mm => mm.finetuned_model.cost_per_1m_tokens)
    / 1000000 * jsOrZero ex.finetuned_tokens)

/-- The claim's cost formula, stated from the spec's words: the fixed per-model
rate divided by 1,000,000, multiplied by the example's output token count,
missing values treated as 0, rounded to 4 decimal places. -/
def specPerExampleCost (rate tokens : Option ℚ) : ℚ :=
  toFixed4 (rate.getD 0 / 1000000 * tokens.getD 0)

theorem jsOrZero_eq_getD (o : Option ℚ) : jsOrZero o = o.getD 0 := by
  cases o <;> rfl

/-- C8: each displayed per-example cost equals the spec formula (fixed rate /
1,000,000 times the output token count, missing values as 0, rounded to 4
decimals), and it is invariant under changing the example's latency fields, so
cost is never derived from latency. -/
theorem c8_cost_formula (m : Option Metrics) (ex : TestExample) (l lf : ℚ) :
    baseCostDisplayed m ex =
        specPerExampleCost (m.map fun mm => mm.base_model.cost_per_1m_tokens)
          ex.base_tokens
    ∧ finetunedCostDisplayed m ex =
        specPerExampleCost
          (m.map fun mm => mm.finetuned_model.cost_per_1m_tokens)
          ex.finetuned_tokens
    ∧ baseCostDisplayed m
        ⟨ex.prompt, ex.base_output, ex.finetuned_output, l, lf,
         ex.base_tokens, ex.finetuned_tokens⟩ = baseCostDisplayed m ex
    ∧ finetunedCostDisplayed m
        ⟨ex.prompt, ex.base_output, ex.finetuned_output, l, lf,
         ex.base_tokens, ex.finetuned_tokens⟩ = finetunedCostDisplayed m ex := by
  refine ⟨?_, ?_, rfl, rfl⟩
  · simp [baseCostDisplayed, specPerExampleCost, jsOrZero_eq_getD]
  · simp [finetunedCostDisplayed, specPerExampleCost, jsOrZero_eq_getD]

/-! ### C2: evaluation test-split selection -/

/-- src/unnamed/part_001 line 27: the evaluation page always sends
`test_size: 50` to the evaluation-run endpoint. -/
def evaluationPageTestSize : Nat := 50

/-- ModelComparison.tsx lines 219-221: the navigation counter text,
"Example {currentIndex + 1} of {test_results.length}". -/
def exampleCounterText (currentIndex numResults : Nat) : String :=
  "Example " ++ toString (currentIndex + 1) ++ " of " ++ toString numResults

/-- Modelled from the spec: the Evaluation Engine's test-split selection (the
backend evaluator is not under src/; only its caller, the evaluation page, is).
Spec section 4.4: "deterministic — the last testSize (or, if the dataset is
shorter, the last 20% of the dataset) examples of the owning dataset's example
sequence, in original order (never random sampling)".  20% is taken with
integer floor. -/
def testSplit (examples : List α) (testSize : Nat) : List α :=
  if testSize ≤ examples.length then
    examples.drop (examples.length - testSize)
  else
    examples.drop (examples.length - examples.length / 5)

/-- C2 counterexample: for a 10-example dataset and the page's testSize of 50,
the spec-modelled split selects the last 20% — 2 examples — not
min(testSize, n) = 10 as the claim states. -/
theorem c2_counterexample :
    (testSplit (List.range 10) evaluationPageTestSize).length ≠
      min evaluationPageTestSize (List.range 10).length := by
  decide

/-- C2 (amended): the split has exactly testSize results when the dataset has
at least testSize examples and otherwise the last 20% (floor n/5) of them; it
is the suffix of the dataset's example sequence of that length, taken in
original order, hence identical across repeated runs with the same dataset and
testSize; the evaluation page always requests testSize = 50; and the
comparison view reports the result count in its navigation counter. -/
theorem c2_test_split (examples : List α) (testSize : Nat) :
    (testSplit examples testSize).length =
        (if testSize ≤ examples.length then testSize else examples.length / 5)
    ∧ (∃ front, examples = front ++ testSplit examples testSize)
    ∧ evaluationPageTestSize = 50
    ∧ (∀ i, exampleCounterText i (testSplit examples testSize).length =
        "Example " ++ toString (i + 1) ++ " of " ++
          toString (if testSize ≤ examples.length then testSize
                    else examples.length / 5)) := by
  have hlen : (testSplit examples testSize).length =
      (if testSize ≤ examples.length then testSize else examples.length / 5) := by
    by_cases h : testSize ≤ examples.length
    · simp [testSplit, h, Nat.sub_sub_self h]
    · have h5 : examples.length / 5 ≤ examples.length := Nat.div_le_self _ _
      simp [testSplit, h, Nat.sub_sub_self h5]
  refine ⟨hlen, ?_, rfl, ?_⟩
  · refine ⟨examples.take (if testSize ≤ examples.length then
        examples.length - testSize
      else examples.length - examples.length / 5), ?_⟩
    by_cases h : testSize ≤ examples.length <;>
      simp [testSplit, h, List.take_append_drop]
  · intro i
    rw [hlen]
    rfl

/-- Witness for C2 at a concrete dataset of 10 examples with testSize 4 (the
split is the last 4 examples, in order) and with the page's testSize 50. -/
theorem c2_test_split_witness :
    (testSplit (List.range 10) 4).length =
        (if 4 ≤ (List.range 10).length then 4 else (List.range 10).length / 5)
    ∧ (∃ front, List.range 10 = front ++ testSplit (List.range 10) 4)
    ∧ exampleCounterText 0 (testSplit (List.range 10)
        evaluationPageTestSize).length = "Example 1 of 2" :=
  ⟨(c2_test_split (List.range 10) 4).1,
   (c2_test_split (List.range 10) 4).2.1,
   by
    have h := (c2_test_split (List.range 10) evaluationPageTestSize).2.2.2 0
    rw [h]
    rfl⟩

/-! ### C3: rating upsert (spec-modelled backend) and its frontend caller -/

/-- The two rateable models (ModelComparison.tsx line 51 and the spec's
`base|finetuned` preference values). -/
inductive Pref where
  | base
  | finetuned
deriving DecidableEq

/-- An Evaluation record as the spec's data model describes it: the ordered
TestResult list, the aggregated Metrics, and the sparse mapping from example
index to user preference. -/
structure EvaluationRec where
  test_results : List TestExample
  metrics : Option Metrics
  ratings : List (Nat × Pref)
deriving DecidableEq

/-- Upsert into the sparse index-to-preference mapping: replace the first entry
with the given key, or append a new entry when the key is absent. -/
def upsertRating : List (Nat × Pref) → Nat → Pref → List (Nat × Pref)
  | [], k, v => [(k, v)]
  | r :: rs, k, v =>
      if r.1 = k then (k, v) :: rs else r :: upsertRating rs k v

/-- The preference stored for an example index, if any. -/
def ratingFor (rs : List (Nat × Pref)) (k : Nat) : Option Pref :=
  (rs.find? fun r => r.1 == k).map Prod.snd

/-- Modelled from the spec: the backend rate operation is not under src/ (only
its caller, handleRating in ModelComparison.tsx, is).  Spec section 4.4:
"rate(evaluationId, exampleIndex, preferredModel) — idempotent upsert into the
Evaluation's preference mapping; fails with a RangeError if exampleIndex is
outside [0, len(test_results)); does not alter Metrics." -/
def rate (ev : EvaluationRec) (exampleIndex : Int) (preferred : Pref) :
    Except CoreError EvaluationRec :=
  if 0 ≤ exampleIndex ∧ exampleIndex < ev.test_results.length then
    Except.ok ⟨ev.test_results, ev.metrics,
      upsertRating ev.ratings exampleIndex.toNat preferred⟩
  else Except.error CoreError.rangeError

theorem upsertRating_idem (rs : List (Nat × Pref)) (k : Nat) (v : Pref) :
    upsertRating (upsertRating rs k v) k v = upsertRating rs k v := by
  induction rs with
  | nil => simp [upsertRating]
  | cons r rs ih =>
      by_cases h : r.1 = k
      · simp [upsertRating, h]
      · simp [upsertRating, h, ih]

theorem ratingFor_upsertRating (rs : List (Nat × Pref)) (k : Nat) (v : Pref) :
    ratingFor (upsertRating rs k v) k = some v := by
  induction rs with
  | nil => simp [upsertRating, ratingFor, List.find?]
  | cons r rs ih =>
      by_cases h : r.1 = k
      · simp [upsertRating, h, ratingFor, List.find?]
      · simp only [upsertRating, h, if_false, ratingFor, List.find?_cons]
        have hb : (r.1 == k) = false := by simp [h]
        rw [hb]
        exact ih

/-- C3: rate fails with a RangeError exactly when the example index is outside
[0, len(test_results)); a successful rate leaves the test results and the
aggregated Metrics unchanged, stores the submitted preference at the index
(so a later call with a different preference replaces it), and repeating the
identical call returns the identical record. -/
theorem c3_rate (ev : EvaluationRec) (i : Int) (p : Pref) :
    (¬ (0 ≤ i ∧ i < ev.test_results.length) →
        rate ev i p = Except.error CoreError.rangeError)
    ∧ (∀ ev', rate ev i p = Except.ok ev' →
        ev'.metrics = ev.metrics
        ∧ ev'.test_results = ev.test_results
        ∧ ratingFor ev'.ratings i.toNat = some p
        ∧ rate ev' i p = Except.ok ev') := by
  constructor
  · intro h
    simp [rate, h]
  · intro ev' hok
    by_cases h : 0 ≤ i ∧ i < ev.test_results.length
    · simp only [rate, h, if_true] at hok
      cases Except.ok.inj hok
      refine ⟨rfl, rfl, ratingFor_upsertRating _ _ _, ?_⟩
      simp [rate, h, upsertRating_idem]
    · simp [rate, h] at hok

/-- Witness for C3 at a concrete evaluation with one test result: index 5 is
rejected with a RangeError, and rating index 0 stores the preference, keeps
metrics and results, and is idempotent. -/
theorem c3_rate_witness :
    rate ⟨[⟨"p", "b", "f", 1, 2, none, none⟩], none, []⟩ 5 Pref.base =
        Except.error CoreError.rangeError
    ∧ ratingFor (upsertRating [] (Int.toNat 0) Pref.base) (Int.toNat 0) =
        some Pref.base
    ∧ rate ⟨[⟨"p", "b", "f", 1, 2, none, none⟩], none,
          upsertRating [] (Int.toNat 0) Pref.base⟩ 0 Pref.base =
        Except.ok ⟨[⟨"p", "b", "f", 1, 2, none, none⟩], none,
          upsertRating [] (Int.toNat 0) Pref.base⟩ :=
  ⟨(c3_rate ⟨[⟨"p", "b", "f", 1, 2, none, none⟩], none, []⟩ 5 Pref.base).1
      (by decide),
   ((c3_rate ⟨[⟨"p", "b", "f", 1, 2, none, none⟩], none, []⟩ 0 Pref.base).2
      ⟨[⟨"p", "b", "f", 1, 2, none, none⟩], none,
        upsertRating [] (Int.toNat 0) Pref.base⟩ rfl).2.2.1,
   ((c3_rate ⟨[⟨"p", "b", "f", 1, 2, none, none⟩], none, []⟩ 0 Pref.base).2
      ⟨[⟨"p", "b", "f", 1, 2, none, none⟩], none,
        upsertRating [] (Int.toNat 0) Pref.base⟩ rfl).2.2.2⟩

/-! ### C9: example-navigation invariant of the comparison view -/

/-- The two navigation actions of ModelComparison.tsx lines 211-228. -/
inductive NavAction where
  | prevClick
  | nextClick
deriving DecidableEq

/-- ModelComparison.tsx lines 213 and 223: Previous sets the index to
`Math.max(0, currentIndex - 1)` and Next to
`Math.min(test_results.length - 1, currentIndex + 1)`. -/
def navStep (n : Nat) (i : Int) : NavAction → Int
  | NavAction.prevClick => max 0 (i - 1)
  | NavAction.nextClick => min ((n : Int) - 1) (i + 1)

/-- The index reached from the initial state `useState(0)` (ModelComparison.tsx
line 49) after a sequence of navigation clicks over `n` test results. -/
def navRun (n : Nat) (acts : List NavAction) : Int :=
  acts.foldl (navStep n) 0

/-- ModelComparison.tsx line 214: the Previous button is disabled iff the
current index is 0. -/
def prevDisabled (i : Int) : Bool := i == 0

/-- ModelComparison.tsx line 224: the Next button is disabled iff the current
index is `test_results.length - 1`. -/
def nextDisabled (n : Nat) (i : Int) : Bool := i == (n : Int) - 1

/-- ModelComparison.tsx lines 74-78: the rating request body carries the
evaluation id, the current example index, and the preferred model. -/
structure RatePayload where
  evaluation_id : Nat
  example_index : Int
  preferred_model : Pref
deriving DecidableEq

/-- ModelComparison.tsx lines 70-83 (handleRating): the payload posted to the
rate endpoint, with `example_index` equal to the component's current index. -/
def ratePayload (evaluationId : Nat) (currentIndex : Int) (preferred : Pref) :
    RatePayload :=
  ⟨evaluationId, currentIndex, preferred⟩

theorem navStep_bounds (n : Nat) (hn : 1 ≤ n) (i : Int) (hi0 : 0 ≤ i)
    (hin : i < n) (a : NavAction) :
    0 ≤ navStep n i a ∧ navStep n i a < n := by
  have hn0 : (0 : Int) < n := by exact_mod_cast hn
  cases a with
  | prevClick =>
      simp only [navStep]
      refine ⟨le_max_left 0 (i - 1), ?_⟩
      rw [max_lt_iff]
      exact ⟨hn0, by omega⟩
  | nextClick =>
      simp only [navStep]
      constructor
      · rw [le_min_iff]
        omega
      · exact lt_of_le_of_lt (min_le_left _ _) (by omega)

theorem navRun_bounds (n : Nat) (hn : 1 ≤ n) (acts : List NavAction) :
    0 ≤ navRun n acts ∧ navRun n acts < n := by
  have key : ∀ (acts : List NavAction) (i : Int), 0 ≤ i → i < n →
      0 ≤ acts.foldl (navStep n) i ∧ acts.foldl (navStep n) i < n := by
    intro acts
    induction acts with
    | nil => intro i h0 h1; exact ⟨h0, h1⟩
    | cons a as ih =>
        intro i h0 h1
        have := navStep_bounds n hn i h0 h1 a
        exact ih (navStep n i a) this.1 this.2
  exact key acts 0 le_rfl (by exact_mod_cast hn)

/-- C9: with a non-empty result list of length n, the index reached by any
sequence of Previous/Next clicks stays in [0, n); Previous is disabled exactly
at index 0 and Next exactly at index n-1; the rating payload submitted from
such a state carries that in-range index; and the rate call on an evaluation
with those n results succeeds — its RangeError branch is unreachable from this
interface. -/
theorem c9_navigation_invariant (n : Nat) (hn : 1 ≤ n) (acts : List NavAction)
    (ev : EvaluationRec) (hlen : ev.test_results.length = n) (evId : Nat)
    (p : Pref) :
    0 ≤ navRun n acts ∧ navRun n acts < n
    ∧ (prevDisabled (navRun n acts) = true ↔ navRun n acts = 0)
    ∧ (nextDisabled n (navRun n acts) = true ↔ navRun n acts = (n : Int) - 1)
    ∧ (ratePayload evId (navRun n acts) p).example_index = navRun n acts
    ∧ ∃ ev', rate ev (navRun n acts) p = Except.ok ev' := by
  obtain ⟨h0, h1⟩ := navRun_bounds n hn acts
  refine ⟨h0, h1, by simp [prevDisabled], by simp [nextDisabled], rfl, ?_⟩
  refine ⟨⟨ev.test_results, ev.metrics,
    upsertRating ev.ratings (navRun n acts).toNat p⟩, ?_⟩
  rw [rate, if_pos ⟨h0, by rw [hlen]; exact h1⟩]

/-- Witness for C9: with 2 results and the click sequence Next, Next, Prev, the
index is 0, in range, and the rate call succeeds. -/
theorem c9_navigation_invariant_witness :
    0 ≤ navRun 2 [NavAction.nextClick, NavAction.nextClick, NavAction.prevClick]
    ∧ navRun 2 [NavAction.nextClick, NavAction.nextClick,
        NavAction.prevClick] < 2
    ∧ ∃ ev', rate ⟨[⟨"p", "b", "f", 1, 2, none, none⟩,
        ⟨"q", "b2", "f2", 3, 4, none, none⟩], none, []⟩
        (navRun 2 [NavAction.nextClick, NavAction.nextClick,
          NavAction.prevClick]) Pref.finetuned = Except.ok ev' := by
  have h := c9_navigation_invariant 2 (by decide)
    [NavAction.nextClick, NavAction.nextClick, NavAction.prevClick]
    ⟨[⟨"p", "b", "f", 1, 2, none, none⟩,
      ⟨"q", "b2", "f2", 3, 4, none, none⟩], none, []⟩ rfl 1 Pref.finetuned
  exact ⟨h.1, h.2.1, h.2.2.2.2.2⟩

/-! ### C10: dataset upload gating and preview (DatasetUpload component) -/

/-- A file as the upload component sees it: a declared name and its text. -/
structure FileData where
  name : String
  text : String
deriving DecidableEq

/-- JS `text.split('\n')`, implemented structurally over the character list. -/
def splitLinesAux : List Char → List Char → List String
  | [], acc => [String.mk acc.reverse]
  | c :: cs, acc =>
      if c = '\n' then String.mk acc.reverse :: splitLinesAux cs []
      else splitLinesAux cs (c :: acc)

/-- JS `text.split('\n')`. -/
def splitLines (text : String) : List String :=
  splitLinesAux text.toList []

/-- JS falsiness of `line.trim()`: the line holds no non-whitespace character. -/
def isBlankLine (s : String) : Bool :=
  s.toList.all fun c => c.isWhitespace

/-- datasets/page.tsx line 225: `text.split('\n').filter(line => line.trim())`,
the non-blank lines of the file. -/
def nonBlankLines (text : String) : List String :=
  (splitLines text).filter fun l => !isBlankLine l

/-- datasets/page.tsx lines 226-232: the preview is the first 5 non-blank lines,
each parsed with JSON.parse, with unparseable lines dropped (`catch` returns
null and `.filter(Boolean)` removes the nulls).  JSON parsing itself is a
platform capability, passed in as `parse`. -/
def previewOf (parse : String → Option α) (text : String) : List α :=
  ((nonBlankLines text).take 5).filterMap parse

/-- All parseable JSON lines of the file, blank and malformed lines skipped. -/
def parseableOf (parse : String → Option α) (text : String) : List α :=
  (nonBlankLines text).filterMap parse

/-- The client-side state of the DatasetUpload component that the claim is
about: the selected file, the error banner, the preview, and the list of files
transmitted to the dataset-upload endpoint. -/
structure UploadState (α : Type) where
  file : Option FileData
  error : Option String
  preview : List α
  uploaded : List FileData

/-- datasets/page.tsx lines 202-207: initial component state (no file, no
error, empty preview, nothing transmitted). -/
def initialUploadState : UploadState α := ⟨none, none, [], []⟩

/-- datasets/page.tsx lines 209-237 (handleFileSelect): a name not ending in
".jsonl" only sets the error and returns; otherwise the file is selected, the
error cleared and the preview computed. -/
def handleFileSelect (parse : String → Option α) (st : UploadState α)
    (f : FileData) : UploadState α :=
  if !strEndsWith f.name ".jsonl" then
    ⟨st.file, some "File must be a .jsonl file", st.preview, st.uploaded⟩
  else ⟨some f, none, previewOf parse f.text, st.uploaded⟩

/-- datasets/page.tsx lines 239-248 (handleDrop): a dropped ".jsonl" file is
set and run through handleFileSelect; anything else only sets the error. -/
def handleDrop (parse : String → Option α) (st : UploadState α)
    (f : FileData) : UploadState α :=
  if strEndsWith f.name ".jsonl" then
    handleFileSelect parse ⟨some f, st.error, st.preview, st.uploaded⟩ f
  else ⟨st.file, some "Please drop a .jsonl file", st.preview, st.uploaded⟩

/-- datasets/page.tsx lines 250-276 (handleUpload): returns immediately when no
file is selected; otherwise transmits the selected file to the dataset
endpoint. -/
def handleUpload (st : UploadState α) : UploadState α :=
  match st.file with
  | none => st
  | some f => ⟨some f, none, st.preview, st.uploaded ++ [f]⟩

/-- The user interactions of the upload component. -/
inductive UploadEvent where
  | select (f : FileData)
  | dropFile (f : FileData)
  | upload

/-- One component transition. -/
def uploadStep (parse : String → Option α) (st : UploadState α) :
    UploadEvent → UploadState α
  | UploadEvent.select f => handleFileSelect parse st f
  | UploadEvent.dropFile f => handleDrop parse st f
  | UploadEvent.upload => handleUpload st

/-- The component state after a sequence of interactions. -/
def uploadRun (parse : String → Option α) (events : List UploadEvent) :
    UploadState α :=
  events.foldl (uploadStep parse) initialUploadState

/-- The gating invariant: the selected file and every transmitted file end in
".jsonl". -/
def jsonlOnly (st : UploadState α) : Prop :=
  (∀ f, st.file = some f → strEndsWith f.name ".jsonl" = true)
  ∧ ∀ f ∈ st.uploaded, strEndsWith f.name ".jsonl" = true

theorem jsonlOnly_step (parse : String → Option α) (st : UploadState α)
    (h : jsonlOnly st) (e : UploadEvent) :
    jsonlOnly (uploadStep parse st e) := by
  obtain ⟨hf, hu⟩ := h
  have selectCase : ∀ f, jsonlOnly (handleFileSelect parse st f) := by
    intro f
    by_cases hs : strEndsWith f.name ".jsonl" = true
    · simp only [handleFileSelect, hs, Bool.not_true, Bool.false_eq_true,
        if_false]
      exact ⟨fun g hg => by cases Option.some.inj hg; exact hs, hu⟩
    · rw [Bool.not_eq_true] at hs
      simp only [handleFileSelect, hs, Bool.not_false, if_true]
      exact ⟨hf, hu⟩
  cases e with
  | select f => exact selectCase f
  | dropFile f =>
      by_cases hs : strEndsWith f.name ".jsonl" = true
      · simp only [uploadStep, handleDrop, hs, if_true, handleFileSelect,
          Bool.not_true, Bool.false_eq_true, if_false]
        exact ⟨fun g hg => by cases Option.some.inj hg; exact hs, hu⟩
      · rw [Bool.not_eq_true] at hs
        simp only [uploadStep, handleDrop, hs, Bool.false_eq_true, if_false]
        exact ⟨hf, hu⟩
  | upload =>
      cases hst : st.file with
      | none => simp only [uploadStep, handleUpload, hst]; exact ⟨hf, hu⟩
      | some f =>
          simp only [uploadStep, handleUpload, hst]
          refine ⟨fun g hg => by cases Option.some.inj hg; exact hf f hst, ?_⟩
          intro g hg
          rcases List.mem_append.mp hg with hg | hg
          · exact hu g hg
          · cases List.mem_singleton.mp hg
            exact hf f hst

theorem jsonlOnly_uploadRun (parse : String → Option α)
    (events : List UploadEvent) : jsonlOnly (uploadRun parse events) := by
  have key : ∀ (evs : List UploadEvent) (st : UploadState α), jsonlOnly st →
      jsonlOnly (evs.foldl (uploadStep parse) st) := by
    intro evs
    induction evs with
    | nil => intro st h; exact h
    | cons e es ih =>
        intro st h
        exact ih _ (jsonlOnly_step parse st h e)
  refine key events initialUploadState
    ⟨fun g hg => Option.noConfusion hg, fun g hg => absurd hg ?_⟩
  exact List.not_mem_nil g

/-- C10: every file the component ever transmits to the upload endpoint has the
".jsonl" suffix — selecting or dropping a file without it only sets the
client-side error, leaving the selected file and the transmitted list
unchanged, so such a file never reaches upload; and for any file text the
preview holds at most 5 entries and is an initial segment of the parseable
JSON lines of the file, blank and malformed lines silently skipped. -/
theorem c10_upload_gating (parse : String → Option α)
    (events : List UploadEvent) (st : UploadState α) (f : FileData)
    (hbad : strEndsWith f.name ".jsonl" = false) (t : String) :
    (∀ g ∈ (uploadRun parse events).uploaded,
        strEndsWith g.name ".jsonl" = true)
    ∧ (handleFileSelect parse st f).error = some "File must be a .jsonl file"
    ∧ (handleFileSelect parse st f).file = st.file
    ∧ (handleFileSelect parse st f).uploaded = st.uploaded
    ∧ (handleDrop parse st f).error = some "Please drop a .jsonl file"
    ∧ (handleDrop parse st f).file = st.file
    ∧ (handleDrop parse st f).uploaded = st.uploaded
    ∧ (previewOf parse t).length ≤ 5
    ∧ previewOf parse t ++ ((nonBlankLines t).drop 5).filterMap parse =
        parseableOf parse t := by
  refine ⟨(jsonlOnly_uploadRun parse events).2, ?_, ?_, ?_, ?_, ?_, ?_, ?_, ?_⟩
  · simp [handleFileSelect, hbad]
  · simp [handleFileSelect, hbad]
  · simp [handleFileSelect, hbad]
  · simp [handleDrop, hbad]
  · simp [handleDrop, hbad]
  · simp [handleDrop, hbad]
  · calc (previewOf parse t).length
        ≤ ((nonBlankLines t).take 5).length := List.length_filterMap_le _ _
      _ ≤ 5 := by
          rw [List.length_take]
          exact min_le_left _ _
  · rw [previewOf, parseableOf, ← List.filterMap_append,
      List.take_append_drop]

/-- Witness for C10: selecting a ".txt" file sets the error and uploads
nothing; after selecting and uploading a ".jsonl" file the transmitted file
has the required suffix; and a 7-line text previews at most 5 entries. -/
theorem c10_upload_gating_witness :
    (handleFileSelect (fun s => if s == "" then none else some s.length)
        (initialUploadState : UploadState Nat) ⟨"data.txt", "x"⟩).error =
      some "File must be a .jsonl file"
    ∧ strEndsWith (FileData.mk "good.jsonl" "x").name ".jsonl" = true
    ∧ (previewOf (fun s => if s == "" then none else some s.length)
        "a\n\nbb\nccc\ndddd\neeeee\nffffff").length ≤ 5 := by
  have h := c10_upload_gating (fun s => if s == "" then none else some s.length)
    [UploadEvent.select ⟨"good.jsonl", "x"⟩, UploadEvent.upload]
    (initialUploadState : UploadState Nat) ⟨"data.txt", "x"⟩ (by decide)
    "a\n\nbb\nccc\ndddd\neeeee\nffffff"
  exact ⟨h.2.1, h.1 ⟨"good.jsonl", "x"⟩ (by decide), h.2.2.2.2.2.2.2.1⟩

end LlmTuna
